import Mathlib

/-!
# HitScoreVisualizer: judgment selection, template expansion, config checks

A shallow embedding of the scoring core of `src/src/main.cpp` (namespace `HSV`:
`getBestJudgment`, `getBestSegment`, `getBestTimeSegment`, `checkJudgments`,
`JudgeText`, `JudgeColor`, `JudgeSegment`, `JudgeTimeSegment`,
`DisplayModeFormat`) and of the deserialisation hooks of
`src/include/json/Config.hpp` (`ColorArray::ParseColor`,
`Config::ValidateJudgements`, `Config::CategorizeBadCuts`).

Conventions of the embedding.

* `std::string` is a list of characters (`Str`); the characters stand for the
  code units of the C++ string, which they are for ASCII text.  `find`,
  `substr(0, n)`, `erase(0, n)` and `operator[]` become `find`, `List.take`,
  `List.drop` and `xs[i]?`.
* `int` is `Int`.  None of the modelled arithmetic can overflow:
  `score / 115 * 100` is no larger than `score` in magnitude, and the index
  counters never exceed the table length.
* `float` is `ℚ`: the modelled code only copies floats, compares them and
  converts them to `int` (truncation towards zero).  This is exact for the
  values the callers pass: a time dependence in [0, 1], converted to 0 or 1.
* A call that throws (`std::optional::value()` on an empty optional, a
  `JSONException`) or reads outside a container returns `Except.error`.
* The process-wide variables `HSV::config`, `HSV::configValid` and the
  function-local `static length` of `getBestJudgment` are the fields of
  `State`, passed explicitly.
-/

set_option linter.unusedVariables false

namespace HSV

/-- A `std::string`, as the list of its characters. -/
abbrev Str := List Char

/-- What a modelled call can fail with. -/
inductive Err where
  /-- `std::bad_optional_access`, thrown by `std::optional::value()`. -/
  | badOptionalAccess
  /-- A read outside a `std::vector` or `std::string` (undefined behaviour). -/
  | outOfBounds
  deriving DecidableEq, Repr

/-- `UnityEngine::Color`. -/
structure Color where
  r : ℚ
  g : ℚ
  b : ℚ
  a : ℚ
  deriving DecidableEq

/-- The `Judgment` entries of `HSV::config.judgments`, with the fields
`main.cpp` reads: `threshold`, `text.value()`, `color.value()`. -/
structure Judgment where
  threshold : Int
  text : Option Str
  color : Option Color
  deriving DecidableEq

/-- The `Segment` entries of the before-cut, accuracy and after-cut tables. -/
structure Segment where
  threshold : Int
  text : Option Str
  deriving DecidableEq

/-- The `TimeSegment` entries of the time-dependence table (float threshold). -/
structure TimeSegment where
  threshold : ℚ
  text : Option Str
  deriving DecidableEq

/-- The fields of `HSVConfig` that the modelled functions read. -/
structure HSVConfig where
  judgments : List Judgment
  beforeCutAngleJudgments : List Segment
  accuracyJudgments : List Segment
  afterCutAngleJudgments : List Segment
  timeDependencyJudgments : List TimeSegment
  timeDependencyDecimalOffset : Int
  timeDependencyDecimalPrecision : Int
  deriving DecidableEq

/-- The mutable globals of `main.cpp`: `HSV::config`, `HSV::configValid`, and
the `static auto length` local to `getBestJudgment`, which is `none` until the
first call initialises it. -/
structure State where
  config : HSVConfig
  configValid : Bool
  length : Option Nat
  deriving DecidableEq

/-- The loop `for (i = 0; i < length; i++) if (comparison >=
config.judgments[i].threshold) break;` started at `i`; its value is the final
`i`.  A read at an index outside `config.judgments` is `outOfBounds`. -/
def getBestJudgment.loop (table : List Judgment) (length : Nat) (comparison : Int)
    (i : Nat) : Except Err Nat :=
  if i < length then
    match table[i]? with
    | none => Except.error Err.outOfBounds
    | some j =>
      if comparison ≥ j.threshold then Except.ok i
      else getBestJudgment.loop table length comparison (i + 1)
  else Except.ok i
termination_by length - i

/-- `HSV::getBestJudgment`.  The argument `judgments` is not used by the body,
which scans `config.judgments`; `length` is initialised from
`config.judgments.size()` by the first call only.  Returns the state after the
call and the result (`none` is `std::nullopt`). -/
def getBestJudgment (st : State) (_judgments : List Judgment) (comparison : Int) :
    State × Except Err (Option Nat) :=
  let length := st.length.getD st.config.judgments.length
  let st1 : State := { st with length := some length }
  if length = 0 then (st1, Except.ok none)
  else (st1, (getBestJudgment.loop st.config.judgments length comparison 0).map some)

/-- The loop of `getBestSegment`: `for (int i = 1; i < size; i++) { if
(comparison >= segments[bestIdx].threshold) break; bestIdx = i; }`; its value
is the final `bestIdx`. -/
def getBestSegment.loop (segments : List Segment) (size : Nat) (comparison : Int)
    (bestIdx i : Nat) : Except Err Nat :=
  if i < size then
    match segments[bestIdx]? with
    | none => Except.error Err.outOfBounds
    | some s =>
      if comparison ≥ s.threshold then Except.ok bestIdx
      else getBestSegment.loop segments size comparison i (i + 1)
  else Except.ok bestIdx
termination_by size - i

/-- `HSV::getBestSegment` (the two logging statements are left out). -/
def getBestSegment (segments : List Segment) (comparison : Int) :
    Except Err (Option Segment) :=
  let size := segments.length
  if size = 0 then Except.ok none
  else
    match getBestSegment.loop segments size comparison 0 1 with
    | Except.error e => Except.error e
    | Except.ok bestIdx =>
      match segments[bestIdx]? with
      | none => Except.error Err.outOfBounds
      | some s => Except.ok (some s)

/-- The loop of `getBestTimeSegment`; the `int` comparison value is converted
to the threshold's floating type for the test. -/
def getBestTimeSegment.loop (segments : List TimeSegment) (size : Nat) (comparison : Int)
    (bestIdx i : Nat) : Except Err Nat :=
  if i < size then
    match segments[bestIdx]? with
    | none => Except.error Err.outOfBounds
    | some s =>
      if (comparison : ℚ) ≥ s.threshold then Except.ok bestIdx
      else getBestTimeSegment.loop segments size comparison i (i + 1)
  else Except.ok bestIdx
termination_by size - i

/-- `HSV::getBestTimeSegment`; its parameter `comparison` is an `int`. -/
def getBestTimeSegment (segments : List TimeSegment) (comparison : Int) :
    Except Err (Option TimeSegment) :=
  let size := segments.length
  if size = 0 then Except.ok none
  else
    match getBestTimeSegment.loop segments size comparison 0 1 with
    | Except.error e => Except.error e
    | Except.ok bestIdx =>
      match segments[bestIdx]? with
      | none => Except.error Err.outOfBounds
      | some s => Except.ok (some s)

/-- `std::optional<T>::value()`: throws on an empty optional. -/
def value {α : Type} (o : Option α) : Except Err α :=
  match o with
  | none => Except.error Err.badOptionalAccess
  | some x => Except.ok x

/-- `std::vector<T>::operator[]`: a read at `i`. -/
def index {α : Type} (v : List α) (i : Nat) : Except Err α :=
  match v[i]? with
  | none => Except.error Err.outOfBounds
  | some x => Except.ok x

/-- `HSV::JudgeSegment`.  The statement `if (judgments.size() == 0) {
std::string(); }` builds a temporary and discards it: it has no `return`, so
control goes on to `getBestSegment(...).value()` for every table. -/
def JudgeSegment (scoreForSegment : Int) (judgments : List Segment) : Except Err Str := do
  let bestSegment ← (getBestSegment judgments scoreForSegment) >>= value
  let text ← value bestSegment.text
  if text.isEmpty then return [] else return text

/-- `HSV::JudgeTimeSegment`; `scoreForSegment` is an `int` parameter.  The
empty-table statement has no `return` here either. -/
def JudgeTimeSegment (scoreForSegment : Int) (judgments : List TimeSegment) :
    Except Err Str := do
  let bestSegment ← (getBestTimeSegment judgments scoreForSegment) >>= value
  let text ← value bestSegment.text
  if text.isEmpty then return [] else return text

/-- `std::to_string(int)`: decimal digits, with a leading `-` when negative. -/
def to_string (n : Int) : Str := (toString n).toList

/-- Conversion of a `float` to `int`: the fractional part is discarded. -/
def floatToInt (x : ℚ) : Int := Int.tdiv x.num x.den

/-- Modelled from the spec: `string_format("%f", x)`, whose definition is not
in the sources, for the integral values `std::round` yields; the spec calls it
"formatted as a fixed-point percentage", printf's `%f` prints six fractional
digits. -/
def string_format_f (x : Int) : Str := (toString x).toList ++ ".000000".toList

/-- The argument of `string_format` in `case 'p'`: `std::round(score / 115 *
100)`.  `score`, `115` and `100` are `int`, so the division truncates, and
`std::round` of the integral result is that result. -/
def percentage (score : Int) : Int := Int.tdiv score 115 * 100

/-- `std::string::find(char)`: the first position of `c`, `none` for `npos`. -/
def find (s : Str) (c : Char) : Option Nat :=
  if s.indexOf c < s.length then some (s.indexOf c) else none

/-- The `switch (specifier)` of `DisplayModeFormat`: the text appended to
`buildString` for one directive.  `convertTime` stands for
`ConvertTimeDependencePrecision` (floating-point stream formatting, not
modelled).  For `'T'` the `float` time dependence is passed to the `int`
parameter of `JudgeTimeSegment`.  For `'p'`, `score / 115 * 100` is `int`
arithmetic and `std::round` of the result is that same integer.  In the
`default` case `to_string(specifier)` is `std::to_string` applied to a `char`,
which is promoted to `int`. -/
def substitution (convertTime : ℚ → Int → Int → Str) (cfg : HSVConfig)
    (score before after accuracy : Int) (timeDependence : ℚ) (specifier : Char) :
    Except Err Str :=
  if specifier = 'b' then Except.ok (to_string before)
  else if specifier = 'c' then Except.ok (to_string accuracy)
  else if specifier = 'a' then Except.ok (to_string after)
  else if specifier = 't' then
    Except.ok (convertTime timeDependence cfg.timeDependencyDecimalOffset
      cfg.timeDependencyDecimalPrecision)
  else if specifier = 'B' then JudgeSegment before cfg.beforeCutAngleJudgments
  else if specifier = 'C' then JudgeSegment accuracy cfg.accuracyJudgments
  else if specifier = 'A' then JudgeSegment after cfg.afterCutAngleJudgments
  else if specifier = 'T' then
    JudgeTimeSegment (floatToInt timeDependence) cfg.timeDependencyJudgments
  else if specifier = 's' then Except.ok (to_string score)
  else if specifier = 'p' then Except.ok (string_format_f (percentage score))
  else if specifier = '%' then Except.ok ['%']
  else if specifier = '>' then Except.ok ['%', '>']
  else if specifier = 'n' then Except.ok ['\n']
  else Except.ok ('%' :: to_string (specifier.toNat : Int))

/-- The `while (nextPercentIndex != -1)` loop of `DisplayModeFormat`.  At the
head of every iteration `nextPercentIndex` equals `formatString.find('%')` (it
is assigned so before the loop and at the end of the body), so the loop state
is `formatString` and `buildString`. -/
def DisplayModeFormat.loop (convertTime : ℚ → Int → Int → Str) (cfg : HSVConfig)
    (score before after accuracy : Int) (timeDependence : ℚ)
    (formatString buildString : Str) : Except Err Str :=
  match h : find formatString '%' with
  | none => Except.ok buildString
  | some nextPercentIndex =>
    let buildString1 := buildString ++ formatString.take nextPercentIndex
    let formatString1 :=
      if formatString.length = nextPercentIndex + 1 then formatString ++ [' ']
      else formatString
    match formatString1[nextPercentIndex + 1]? with
    | none => Except.error Err.outOfBounds
    | some specifier =>
      match substitution convertTime cfg score before after accuracy timeDependence
          specifier with
      | Except.error e => Except.error e
      | Except.ok sub =>
        DisplayModeFormat.loop convertTime cfg score before after accuracy timeDependence
          (formatString1.drop (nextPercentIndex + 2)) (buildString1 ++ sub)
termination_by formatString.length
decreasing_by
  have hlt : nextPercentIndex < formatString.length := by
    unfold find at h
    split at h
    · simp only [Option.some.injEq] at h
      omega
    · simp at h
  simp only [List.length_drop]
  split
  · simp only [List.length_append, List.length_singleton]
    omega
  · omega

/-- `HSV::DisplayModeFormat` (the final logging statement is left out).
`cfg` is the global `HSV::config` the body reads. -/
def DisplayModeFormat (convertTime : ℚ → Int → Int → Str) (cfg : HSVConfig)
    (score before after accuracy : Int) (timeDependence : ℚ) (judgment : Judgment) :
    Except Err Str :=
  match judgment.text with
  | none => Except.error Err.badOptionalAccess
  | some formatString =>
    match find formatString '%' with
    | none => value judgment.text
    | some _ =>
      DisplayModeFormat.loop convertTime cfg score before after accuracy timeDependence
        formatString []

/-- `HSV::JudgeText`. -/
def JudgeText (convertTime : ℚ → Int → Int → Str) (cfg : HSVConfig)
    (score before after accuracy : Int) (timeDependence : ℚ) (bestIndex : Nat) :
    Except Err Str :=
  match index cfg.judgments bestIndex with
  | Except.error e => Except.error e
  | Except.ok judgment =>
    DisplayModeFormat convertTime cfg score before after accuracy timeDependence judgment

/-- `HSV::JudgeColor`. -/
def JudgeColor (cfg : HSVConfig) (bestIndex : Nat) : Except Err Color :=
  match index cfg.judgments bestIndex with
  | Except.error e => Except.error e
  | Except.ok judgment => value judgment.color

/-- `TMPro::TextOverflowModes`. -/
inductive TextOverflowModes where
  | Overflow | Ellipsis | Masking | Truncate | ScrollRect | Page | Linked
  deriving DecidableEq, Repr

/-- The properties of the `TMPro::TextMeshPro` label that `checkJudgments`
sets. -/
structure TextMeshPro where
  text : Str
  color : Color
  richText : Bool
  enableWordWrapping : Bool
  overflowMode : TextOverflowModes
  deriving DecidableEq

/-- The fields of `GlobalNamespace::FlyingScoreEffect` that `checkJudgments`
writes: the label and the effect colour. -/
structure FlyingScoreEffect where
  text : TextMeshPro
  color : Color
  deriving DecidableEq

/-- `HSV::checkJudgments`: the globals and the effect after the call, or the
failure that stopped it. -/
def checkJudgments (convertTime : ℚ → Int → Int → Str) (st : State)
    (flyingScoreEffect : FlyingScoreEffect) (total before after accuracy : Int)
    (timeDependence : ℚ) : Except Err (State × FlyingScoreEffect) :=
  if !st.configValid then Except.ok (st, flyingScoreEffect)
  else
    let r := getBestJudgment st st.config.judgments total
    let st1 := r.1
    do
      let bestIndex ← r.2
      let i ← value bestIndex
      let _best ← index st1.config.judgments i
      let text ← JudgeText convertTime st1.config total before after accuracy timeDependence i
      let color ← JudgeColor st1.config i
      let label : TextMeshPro :=
        { flyingScoreEffect.text with
          text := text, color := color, richText := true, enableWordWrapping := false,
          overflowMode := TextOverflowModes.Overflow }
      let color2 ← JudgeColor st1.config i
      return (st1, { flyingScoreEffect with text := label, color := color2 })

/-! ## `include/json/Config.hpp` -/

/-- `JSONException`, with its message. -/
structure JSONException where
  what : String
  deriving DecidableEq, Repr

/-- `HSV::BadCutTypes`. -/
abbrev BadCutTypes : List String := ["All", "WrongDirection", "WrongColor", "Bomb"]

/-- `HSV::ColorArray`: the raw JSON array and the colour resolved from it. -/
structure ColorArray where
  RawColor : List ℚ
  Color : Color
  deriving DecidableEq

/-- `ColorArray::ParseColor`, the hook run after `RawColor` is read: the
object after the hook, or the exception thrown. -/
def ColorArray.ParseColor (self : ColorArray) : Except JSONException ColorArray :=
  if h : self.RawColor.length ≠ 4 then
    Except.error ⟨"invalid color array length"⟩
  else
    have h4 : self.RawColor.length = 4 := not_not.mp h
    Except.ok { self with
      Color := ⟨self.RawColor[0], self.RawColor[1], self.RawColor[2], self.RawColor[3]⟩ }

/-- `HSV::Judgement` of `Config.hpp` (the tokenised `Text`, whose type is not
in the sources, is left out). -/
structure Judgement where
  UnprocessedText : String
  Color : ColorArray
  Threshold : Int
  Fade : Option Bool
  deriving DecidableEq

/-- `HSV::BadCutDisplay`; the field `Type` is spelt `Type_`. -/
structure BadCutDisplay where
  Text : String
  Type_ : String
  Color : ColorArray
  deriving DecidableEq

/-- The fields of `HSV::Config` that `ValidateJudgements` and
`CategorizeBadCuts` read or write. -/
structure Config where
  Judgements : List Judgement
  BadCutDisplays : List BadCutDisplay
  WrongDirections : List BadCutDisplay
  WrongColors : List BadCutDisplay
  Bombs : List BadCutDisplay
  deriving DecidableEq

/-- `Config::ValidateJudgements`. -/
def Config.ValidateJudgements (self : Config) : Except JSONException Unit :=
  if self.Judgements.length < 1 then
    Except.error ⟨"no judgements found in config"⟩
  else Except.ok ()

/-- One iteration of the `for (auto& display : BadCutDisplays)` loop of
`CategorizeBadCuts`. -/
def Config.CategorizeBadCuts.step (self : Config) (display : BadCutDisplay) : Config :=
  let self1 :=
    if display.Type_ = BadCutTypes[0] ∨ display.Type_ = BadCutTypes[1] then
      { self with WrongDirections := self.WrongDirections ++ [display] }
    else self
  let self2 :=
    if display.Type_ = BadCutTypes[0] ∨ display.Type_ = BadCutTypes[2] then
      { self1 with WrongColors := self1.WrongColors ++ [display] }
    else self1
  if display.Type_ = BadCutTypes[0] ∨ display.Type_ = BadCutTypes[3] then
    { self2 with Bombs := self2.Bombs ++ [display] }
  else self2

/-- `Config::CategorizeBadCuts`: the three `clear()` calls, then the loop. -/
def Config.CategorizeBadCuts (self : Config) : Config :=
  let cleared : Config := { self with WrongDirections := [], WrongColors := [], Bombs := [] }
  cleared.BadCutDisplays.foldl Config.CategorizeBadCuts.step cleared

/-! ## Example data -/

/-- White, the colour used in the examples. -/
def white : Color := ⟨1, 1, 1, 1⟩

/-- A config holding the judgment table `js` and no segment tables. -/
def configOf (js : List Judgment) : HSVConfig :=
  { judgments := js, beforeCutAngleJudgments := [], accuracyJudgments := [],
    afterCutAngleJudgments := [], timeDependencyJudgments := [],
    timeDependencyDecimalOffset := 2, timeDependencyDecimalPrecision := 1 }

/-- The globals before the first call of `getBestJudgment`, with a valid
config holding `js`. -/
def freshState (js : List Judgment) : State :=
  { config := configOf js, configValid := true, length := none }

/-- A judgment with threshold `t` and text `s`. -/
def judgmentOf (t : Int) (s : String) : Judgment :=
  { threshold := t, text := some s.toList, color := some white }

/-- A three-tier table in descending threshold order. -/
def threeTiers : List Judgment :=
  [judgmentOf 110 "Fantastic", judgmentOf 100 "Good", judgmentOf 0 "Bad"]

/-- A one-tier table whose threshold is 100. -/
def oneTier : List Judgment := [judgmentOf 100 "%s"]

/-- A flying score effect with an empty label, as `InitAndPresent` leaves it. -/
def blankEffect : FlyingScoreEffect :=
  { text := { text := [], color := white, richText := false, enableWordWrapping := true,
              overflowMode := TextOverflowModes.Ellipsis },
    color := white }

/-- A colour array holding solid white, raw and resolved. -/
def whiteArray : ColorArray := { RawColor := [1, 1, 1, 1], Color := white }

/-- A bad-cut display of type `ty`. -/
def displayOf (ty : String) : BadCutDisplay :=
  { Text := "Oops", Type_ := ty, Color := whiteArray }

/-- A loaded document with one judgment and three bad-cut displays, whose
buckets still hold entries of an earlier load. -/
def sampleConfig : Config :=
  { Judgements := [{ UnprocessedText := "%s", Color := whiteArray, Threshold := 0,
                     Fade := none }],
    BadCutDisplays := [displayOf "All", displayOf "Bomb", displayOf "WrongColor"],
    WrongDirections := [displayOf "Bomb"],
    WrongColors := [],
    Bombs := [displayOf "WrongDirection", displayOf "All"] }

/-- The success path of `HSV::loadConfig`: `ConfigHelper::LoadConfig` (not in
the sources) fills `config` with the parsed document, here `loaded`, and
`HANDLE_CONFIG_FAILURE` sets `configValid`.  The `static length` of
`getBestJudgment` is local to that function and is not assigned here. -/
def loadConfig (st : State) (loaded : HSVConfig) : State :=
  { st with config := loaded, configValid := true }

/-- The globals when the config failed to load: `configValid` is false, the
judgment table is empty and `getBestJudgment` was never called. -/
def invalidState : State :=
  { config := configOf [], configValid := false, length := none }

/-- A time-dependence table with the thresholds 0.3 and 0.0. -/
def timeTable : List TimeSegment :=
  [{ threshold := 3 / 10, text := some ['A'] }, { threshold := 0, text := some ['B'] }]

/-- A config whose only segment table is `timeTable`. -/
def timeConfig : HSVConfig :=
  { configOf [] with timeDependencyJudgments := timeTable }

/-- A judgment whose text is the single directive `%T`. -/
def timeJudgment : Judgment := judgmentOf 0 "%T"

/-- An accuracy table with the thresholds 15, 10 and 12. -/
def accuracyTable : List Segment :=
  [{ threshold := 15, text := some ['S'] }, { threshold := 10, text := some ['A'] },
   { threshold := 12, text := some ['B'] }]

end HSV

/-! # Theorems -/

namespace HSV

/-- The judgment scan started at or before the first qualifying index `m`
stops there, when `m` lies inside both the scanned length and the table. -/
theorem getBestJudgment.loop_stops (table : List Judgment) (length : Nat) (comparison : Int)
    (m : Nat) (hm : m < table.length) (hml : m < length)
    (hq : comparison ≥ table[m].threshold)
    (hmin : ∀ k (hk : k < table.length), k < m → comparison < table[k].threshold)
    (d i : Nat) (hd : m - i = d) (hi : i ≤ m) :
    getBestJudgment.loop table length comparison i = Except.ok m := by
  induction d generalizing i with
  | zero =>
    have him : i = m := by omega
    subst him
    rw [getBestJudgment.loop]
    have hget : table[i]? = some table[i] := by
      exact List.getElem?_eq_getElem hm
    simp only [hml, if_true, hget]
    simp [hq]
  | succ d ih =>
    have hlt : i < m := by omega
    have hit : i < table.length := by omega
    rw [getBestJudgment.loop]
    have hget : table[i]? = some table[i] := by
      exact List.getElem?_eq_getElem hit
    have hil : i < length := by omega
    have hno : ¬ comparison ≥ table[i].threshold := by
      have := hmin i hit hlt
      omega
    simp only [hil, if_true, hget]
    simp only [hno, if_false]
    exact ih (i + 1) (by omega) (by omega)

/-- The judgment scan runs to `length` when no scanned entry qualifies. -/
theorem getBestJudgment.loop_exhausts (table : List Judgment) (length : Nat) (comparison : Int)
    (hl : length ≤ table.length)
    (hnone : ∀ k (hk : k < table.length), k < length →
      comparison < table[k].threshold)
    (d i : Nat) (hd : length - i = d) (hi : i ≤ length) :
    getBestJudgment.loop table length comparison i = Except.ok length := by
  induction d generalizing i with
  | zero =>
    have him : i = length := by omega
    subst him
    rw [getBestJudgment.loop]
    simp
  | succ d ih =>
    have hil : i < length := by omega
    have hit : i < table.length := by omega
    rw [getBestJudgment.loop]
    have hget : table[i]? = some table[i] := by
      exact List.getElem?_eq_getElem hit
    have hno : ¬ comparison ≥ table[i].threshold := by
      have := hnone i hit hil
      omega
    simp only [hil, if_true, hget]
    simp only [hno, if_false]
    exact ih (i + 1) (by omega) (by omega)

/-- While the argument is the table the shared config holds and the `static
length` agrees with it (still to be initialised, or initialised when the table
had its present size), `getBestJudgment` returns the smallest index `i` with
`value >= table[i].threshold`, for every non-empty table and every value that
some entry's threshold does not exceed. -/
theorem getBestJudgment_first_qualifying (st : State) (table : List Judgment) (value : Int)
    (hcfg : st.config.judgments = table)
    (hlen : st.length = none ∨ st.length = some table.length)
    (hne : table ≠ [])
    (hex : ∃ j ∈ table, j.threshold ≤ value) :
    ∃ (i : Nat) (hi : i < table.length),
      (getBestJudgment st table value).2 = Except.ok (some i) ∧
      value ≥ table[i].threshold ∧
      ∀ k (hk : k < table.length), value ≥ table[k].threshold → i ≤ k := by
  classical
  subst hcfg
  have hlen0 : st.config.judgments.length ≠ 0 := by
    intro h0
    exact hne (List.length_eq_zero.mp h0)
  have hP : ∃ k, ∃ hk : k < st.config.judgments.length,
      value ≥ st.config.judgments[k].threshold := by
    obtain ⟨j, hj, hjv⟩ := hex
    obtain ⟨k, hk, hkj⟩ := List.getElem_of_mem hj
    exact ⟨k, hk, by rw [hkj]; exact hjv⟩
  obtain ⟨hm, hq⟩ := Nat.find_spec hP
  have hmin : ∀ k (hk : k < st.config.judgments.length), k < Nat.find hP →
      value < st.config.judgments[k].threshold := by
    intro k hk hlt
    have := Nat.find_min hP hlt
    by_contra hcon
    exact this ⟨hk, by omega⟩
  refine ⟨Nat.find hP, hm, ?_, hq, ?_⟩
  · have hL : st.length.getD st.config.judgments.length = st.config.judgments.length := by
      rcases hlen with h | h <;> simp [h]
    have hloop := getBestJudgment.loop_stops st.config.judgments st.config.judgments.length
      value (Nat.find hP) hm hm hq hmin (Nat.find hP) 0 (by omega) (by omega)
    simp only [getBestJudgment, hL, hlen0, if_false, hloop]
    rfl
  · intro k hk hkq
    exact Nat.find_min' hP ⟨hk, hkq⟩

/-- On the first call, in the three-tier table 110, 100, 0, the value 105
selects the smallest qualifying index. -/
theorem getBestJudgment_first_qualifying_witness :
    (freshState threeTiers).config.judgments = threeTiers ∧
    ((freshState threeTiers).length = none ∨
      (freshState threeTiers).length = some threeTiers.length) ∧
    threeTiers ≠ [] ∧
    (∃ j ∈ threeTiers, j.threshold ≤ 105) ∧
    ∃ (i : Nat) (hi : i < threeTiers.length),
      (getBestJudgment (freshState threeTiers) threeTiers 105).2 = Except.ok (some i) ∧
      (105 : Int) ≥ threeTiers[i].threshold ∧
      ∀ k (hk : k < threeTiers.length), (105 : Int) ≥ threeTiers[k].threshold → i ≤ k :=
  ⟨rfl, Or.inl rfl, by decide, ⟨judgmentOf 100 "Good", by decide, by decide⟩,
    getBestJudgment_first_qualifying (freshState threeTiers) threeTiers 105 rfl (Or.inl rfl)
      (by decide) ⟨judgmentOf 100 "Good", by decide, by decide⟩⟩

/-- C1 (evaluation at the failing input): the first call, under a config with
one judgment, records the length 1; after a reload to the three-tier table
110, 100, 0, `getBestJudgment` called with that table and the value 50, which
the third threshold 0 does not exceed, returns 1, where the threshold 100
exceeds 50; the smallest index whose threshold 50 reaches is 2.  And under a
fresh three-tier config the call with the one-entry table 100 and the value
105 returns 1, found in the config's table, not the index 0 of the table it
is given. -/
theorem getBestJudgment_misses_first_qualifying :
    (loadConfig (getBestJudgment (freshState oneTier) oneTier 100).1
      (configOf threeTiers)).config.judgments = threeTiers ∧
    (∃ j ∈ threeTiers, j.threshold ≤ 50) ∧
    (getBestJudgment
      (loadConfig (getBestJudgment (freshState oneTier) oneTier 100).1 (configOf threeTiers))
      threeTiers 50).2 = Except.ok (some 1) ∧
    threeTiers[1]? = some (judgmentOf 100 "Good") ∧
    ¬ ((50 : Int) ≥ (judgmentOf 100 "Good").threshold) ∧
    threeTiers[2]? = some (judgmentOf 0 "Bad") ∧
    (50 : Int) ≥ (judgmentOf 0 "Bad").threshold ∧
    (getBestJudgment (freshState threeTiers) oneTier 105).2 = Except.ok (some 1) ∧
    oneTier[0]? = some (judgmentOf 100 "%s") ∧
    (105 : Int) ≥ (judgmentOf 100 "%s").threshold := by
  refine ⟨rfl, ⟨judgmentOf 0 "Bad", by decide, by decide⟩, ?_, rfl, by decide, rfl, by decide,
    ?_, rfl, by decide⟩
  · simp [getBestJudgment, getBestJudgment.loop, loadConfig, freshState, configOf, oneTier,
      threeTiers, judgmentOf, Except.map]
  · simp [getBestJudgment, getBestJudgment.loop, freshState, configOf, threeTiers, judgmentOf,
      Except.map]

/-- C2 (evaluation at the failing input): on the one-entry table with
threshold 100 and the value 50, which is below every threshold,
`getBestJudgment` returns 1, the table's length and not its last index 0, and
`checkJudgments` then reads `config.judgments[1]`, outside the table. -/
theorem getBestJudgment_below_all_thresholds (convertTime : ℚ → Int → Int → Str) :
    (getBestJudgment (freshState oneTier) oneTier 50).2 = Except.ok (some 1) ∧
    oneTier.length = 1 ∧
    checkJudgments convertTime (freshState oneTier) blankEffect 50 20 20 10 0
      = Except.error Err.outOfBounds := by
  refine ⟨?_, rfl, ?_⟩
  · simp [getBestJudgment, getBestJudgment.loop, freshState, configOf, oneTier, judgmentOf,
      Except.map]
  · simp [checkJudgments, getBestJudgment, getBestJudgment.loop, freshState, configOf, oneTier,
      judgmentOf, Except.map, value, index, bind, Except.bind]

/-- `find` has no result exactly when the character does not occur. -/
theorem find_eq_none_iff (s : Str) (c : Char) : find s c = none ↔ c ∉ s := by
  unfold find
  rw [← List.indexOf_lt_length]
  split <;> simp_all

/-- C3 (evaluation at the failing input): the template `%s pts` with the total
score 115 expands to `115`; the text ` pts` after the last directive is not
appended to the result. -/
theorem DisplayModeFormat_drops_trailing_text (convertTime : ℚ → Int → Int → Str)
    (cfg : HSVConfig) (before after accuracy : Int) (timeDependence : ℚ) :
    DisplayModeFormat convertTime cfg 115 before after accuracy timeDependence
      (judgmentOf 100 "%s pts") = Except.ok "115".toList := by
  simp [DisplayModeFormat, DisplayModeFormat.loop, find, substitution, to_string, judgmentOf]
  decide

/-- C4 (evaluation at the failing input): with an empty segment table,
`JudgeSegment` and `JudgeTimeSegment` fail with `std::bad_optional_access` for
every score, and so does the expansion of each of `%B`, `%C`, `%A`, `%T` under
a config whose segment tables are empty. -/
theorem JudgeSegment_empty_table_throws (convertTime : ℚ → Int → Int → Str)
    (score before after accuracy : Int) (timeDependence : ℚ) :
    JudgeSegment score [] = Except.error Err.badOptionalAccess ∧
    JudgeTimeSegment score [] = Except.error Err.badOptionalAccess ∧
    DisplayModeFormat convertTime (configOf []) score before after accuracy timeDependence
      (judgmentOf 0 "%B") = Except.error Err.badOptionalAccess ∧
    DisplayModeFormat convertTime (configOf []) score before after accuracy timeDependence
      (judgmentOf 0 "%C") = Except.error Err.badOptionalAccess ∧
    DisplayModeFormat convertTime (configOf []) score before after accuracy timeDependence
      (judgmentOf 0 "%A") = Except.error Err.badOptionalAccess ∧
    DisplayModeFormat convertTime (configOf []) score before after accuracy timeDependence
      (judgmentOf 0 "%T") = Except.error Err.badOptionalAccess := by
  have hS : ∀ s : Int, JudgeSegment s [] = Except.error Err.badOptionalAccess := fun _ => rfl
  have hT : ∀ s : Int, JudgeTimeSegment s [] = Except.error Err.badOptionalAccess :=
    fun _ => rfl
  refine ⟨hS _, hT _, ?_, ?_, ?_, ?_⟩ <;>
    simp [DisplayModeFormat, DisplayModeFormat.loop, find, substitution, judgmentOf, configOf,
      hS, hT]

/-- C5 (evaluation at the failing input): the template `%q` expands to `%113`
and the template `%` to `%32`: the unrecognised specifier is appended as the
decimal number of its character code, not as the character. -/
theorem DisplayModeFormat_unknown_specifier (convertTime : ℚ → Int → Int → Str)
    (cfg : HSVConfig) (score before after accuracy : Int) (timeDependence : ℚ) :
    DisplayModeFormat convertTime cfg score before after accuracy timeDependence
      (judgmentOf 0 "%q") = Except.ok "%113".toList ∧
    DisplayModeFormat convertTime cfg score before after accuracy timeDependence
      (judgmentOf 0 "%") = Except.ok "%32".toList := by
  constructor
  · simp [DisplayModeFormat, DisplayModeFormat.loop, find, substitution, to_string, judgmentOf]
    decide
  · simp [DisplayModeFormat, DisplayModeFormat.loop, find, substitution, to_string, judgmentOf]
    decide

/-- Every score from 0 to 114 has the percentage 0. -/
theorem percentage_below_115 (score : Int) (h0 : 0 ≤ score) (h1 : score < 115) :
    percentage score = 0 := by
  unfold percentage
  have : Int.tdiv score 115 = 0 := Int.tdiv_eq_zero_of_lt h0 h1
  rw [this]
  rfl

/-- C6 (evaluation at the failing input): for the score 100 the number
substituted for `%p` is 0, rendered `0.000000`; it is further than 0.5 from
100 * 100 / 115, and it is 0 although the score is not. -/
theorem DisplayModeFormat_percentage_of_100 (convertTime : ℚ → Int → Int → Str)
    (cfg : HSVConfig) (before after accuracy : Int) (timeDependence : ℚ) :
    percentage 100 = 0 ∧
    ¬ (|((percentage 100 : Int) : ℚ) - 100 * 100 / 115| ≤ 1 / 2) ∧
    DisplayModeFormat convertTime cfg 100 before after accuracy timeDependence
      (judgmentOf 0 "%p") = Except.ok "0.000000".toList := by
  have hp : percentage 100 = 0 := by decide
  refine ⟨hp, ?_, ?_⟩
  · rw [hp]
    norm_num [abs_le]
  · simp [DisplayModeFormat, DisplayModeFormat.loop, find, substitution, string_format_f,
      judgmentOf, hp]
    decide

/-- C7: for every judgment whose text contains no `%`, and for all score
inputs, `DisplayModeFormat` returns the text unchanged. -/
theorem DisplayModeFormat_no_directive (convertTime : ℚ → Int → Int → Str)
    (cfg : HSVConfig) (score before after accuracy : Int) (timeDependence : ℚ)
    (judgment : Judgment) (text : Str) (htext : judgment.text = some text)
    (hno : '%' ∉ text) :
    DisplayModeFormat convertTime cfg score before after accuracy timeDependence judgment
      = Except.ok text := by
  have hfind : find text '%' = none := (find_eq_none_iff text '%').mpr hno
  simp only [DisplayModeFormat, htext, hfind, value]

/-- Witness of C7: the text `Good` has no directive and is returned as it is. -/
theorem DisplayModeFormat_no_directive_witness :
    (judgmentOf 100 "Good").text = some "Good".toList ∧ '%' ∉ "Good".toList ∧
    DisplayModeFormat (fun _ _ _ => []) (configOf threeTiers) 104 70 30 4 (1 / 2)
      (judgmentOf 100 "Good") = Except.ok "Good".toList :=
  ⟨rfl, by decide,
    DisplayModeFormat_no_directive (fun _ _ _ => []) (configOf threeTiers) 104 70 30 4 (1 / 2)
      (judgmentOf 100 "Good") "Good".toList rfl (by decide)⟩

/-- What one loop iteration of `CategorizeBadCuts` does to each field. -/
theorem Config.CategorizeBadCuts.step_fields (c : Config) (d : BadCutDisplay) :
    (Config.CategorizeBadCuts.step c d).WrongDirections =
      c.WrongDirections ++ [d].filter (fun d => decide (d.Type_ = "All" ∨ d.Type_ = "WrongDirection")) ∧
    (Config.CategorizeBadCuts.step c d).WrongColors =
      c.WrongColors ++ [d].filter (fun d => decide (d.Type_ = "All" ∨ d.Type_ = "WrongColor")) ∧
    (Config.CategorizeBadCuts.step c d).Bombs =
      c.Bombs ++ [d].filter (fun d => decide (d.Type_ = "All" ∨ d.Type_ = "Bomb")) ∧
    (Config.CategorizeBadCuts.step c d).BadCutDisplays = c.BadCutDisplays ∧
    (Config.CategorizeBadCuts.step c d).Judgements = c.Judgements := by
  by_cases h1 : d.Type_ = "All" ∨ d.Type_ = "WrongDirection" <;>
  by_cases h2 : d.Type_ = "All" ∨ d.Type_ = "WrongColor" <;>
  by_cases h3 : d.Type_ = "All" ∨ d.Type_ = "Bomb" <;>
  simp [Config.CategorizeBadCuts.step, h1, h2, h3, List.filter_cons]

/-- The loop of `CategorizeBadCuts` over `ds` appends to each bucket the
displays of `ds` that belong to it, in order, and leaves the other fields. -/
theorem Config.CategorizeBadCuts.foldl_step (ds : List BadCutDisplay) (c : Config) :
    (ds.foldl Config.CategorizeBadCuts.step c).WrongDirections =
      c.WrongDirections ++
        ds.filter (fun d => decide (d.Type_ = "All" ∨ d.Type_ = "WrongDirection")) ∧
    (ds.foldl Config.CategorizeBadCuts.step c).WrongColors =
      c.WrongColors ++ ds.filter (fun d => decide (d.Type_ = "All" ∨ d.Type_ = "WrongColor")) ∧
    (ds.foldl Config.CategorizeBadCuts.step c).Bombs =
      c.Bombs ++ ds.filter (fun d => decide (d.Type_ = "All" ∨ d.Type_ = "Bomb")) ∧
    (ds.foldl Config.CategorizeBadCuts.step c).BadCutDisplays = c.BadCutDisplays ∧
    (ds.foldl Config.CategorizeBadCuts.step c).Judgements = c.Judgements := by
  induction ds generalizing c with
  | nil => simp
  | cons d ds ih =>
    obtain ⟨h1, h2, h3, h4, h5⟩ := ih (Config.CategorizeBadCuts.step c d)
    obtain ⟨s1, s2, s3, s4, s5⟩ := Config.CategorizeBadCuts.step_fields c d
    simp only [List.foldl_cons, h1, h2, h3, h4, h5, s1, s2, s3, s4, s5, List.append_assoc,
      ← List.filter_append, List.singleton_append]
    simp

/-- C8: after `CategorizeBadCuts`, whatever the three buckets held before,
`WrongDirections`, `WrongColors` and `Bombs` are the sub-lists of
`BadCutDisplays`, in the original order, of the displays whose type is `All`
or, respectively, `WrongDirection`, `WrongColor`, `Bomb`; the raw list is
unchanged; a display of type `All` is in all three buckets and one of type
`Bomb` is in `Bombs` and in neither of the other two. -/
theorem CategorizeBadCuts_buckets (c : Config) :
    c.CategorizeBadCuts.WrongDirections =
      c.BadCutDisplays.filter (fun d => decide (d.Type_ = "All" ∨ d.Type_ = "WrongDirection")) ∧
    c.CategorizeBadCuts.WrongColors =
      c.BadCutDisplays.filter (fun d => decide (d.Type_ = "All" ∨ d.Type_ = "WrongColor")) ∧
    c.CategorizeBadCuts.Bombs =
      c.BadCutDisplays.filter (fun d => decide (d.Type_ = "All" ∨ d.Type_ = "Bomb")) ∧
    c.CategorizeBadCuts.BadCutDisplays = c.BadCutDisplays ∧
    (∀ d ∈ c.BadCutDisplays, d.Type_ = "All" →
      d ∈ c.CategorizeBadCuts.WrongDirections ∧ d ∈ c.CategorizeBadCuts.WrongColors ∧
        d ∈ c.CategorizeBadCuts.Bombs) ∧
    (∀ d ∈ c.BadCutDisplays, d.Type_ = "Bomb" →
      d ∈ c.CategorizeBadCuts.Bombs ∧ d ∉ c.CategorizeBadCuts.WrongDirections ∧
        d ∉ c.CategorizeBadCuts.WrongColors) := by
  obtain ⟨h1, h2, h3, h4, _⟩ := Config.CategorizeBadCuts.foldl_step c.BadCutDisplays
    { c with WrongDirections := [], WrongColors := [], Bombs := [] }
  simp only [List.nil_append] at h1 h2 h3 h4
  have e1 : c.CategorizeBadCuts.WrongDirections = _ := h1
  have e2 : c.CategorizeBadCuts.WrongColors = _ := h2
  have e3 : c.CategorizeBadCuts.Bombs = _ := h3
  have e4 : c.CategorizeBadCuts.BadCutDisplays = _ := h4
  refine ⟨e1, e2, e3, e4, ?_, ?_⟩
  · intro d hd ht
    rw [e1, e2, e3]
    simp [List.mem_filter, hd, ht]
  · intro d hd ht
    rw [e1, e2, e3]
    simp [List.mem_filter, hd, ht]

/-- C9: `ValidateJudgements` throws exactly when the judgments list is empty,
and a config that passes it has at least one judgment. -/
theorem ValidateJudgements_iff_empty (c : Config) :
    ((∃ e, c.ValidateJudgements = Except.error e) ↔ c.Judgements = []) ∧
    (c.ValidateJudgements = Except.ok () ↔ 1 ≤ c.Judgements.length) ∧
    (c.Judgements = [] →
      c.ValidateJudgements = Except.error ⟨"no judgements found in config"⟩) := by
  unfold Config.ValidateJudgements
  cases hj : c.Judgements with
  | nil => simp
  | cons j js => simp

/-- C10: `ParseColor` throws exactly when the raw array's length is not 4, and
on an array of four components it succeeds with `r`, `g`, `b`, `a` equal to
the components 0, 1, 2, 3 in that order, the raw array kept. -/
theorem ParseColor_iff_four (self : ColorArray) :
    ((∃ e, self.ParseColor = Except.error e) ↔ self.RawColor.length ≠ 4) ∧
    ((∃ c, self.ParseColor = Except.ok c) ↔ self.RawColor.length = 4) ∧
    (∀ r g b a, self.RawColor = [r, g, b, a] →
      self.ParseColor = Except.ok { RawColor := [r, g, b, a], Color := ⟨r, g, b, a⟩ }) ∧
    (∀ c, self.ParseColor = Except.ok c →
      c.RawColor = self.RawColor ∧
      self.RawColor[0]? = some c.Color.r ∧ self.RawColor[1]? = some c.Color.g ∧
      self.RawColor[2]? = some c.Color.b ∧ self.RawColor[3]? = some c.Color.a) := by
  unfold ColorArray.ParseColor
  by_cases h : self.RawColor.length ≠ 4
  · rw [dif_pos h]
    refine ⟨by simpa using h, by simpa using h, ?_, by simp⟩
    intro r g b a hr
    rw [hr] at h
    exact absurd rfl h
  · have h4 : self.RawColor.length = 4 := not_not.mp h
    rw [dif_neg h]
    refine ⟨by simp [h4], by simp [h4], ?_, ?_⟩
    · intro r g b a hr
      simp [hr]
    · intro c hc
      cases hc
      simp [List.getElem?_eq_getElem, h4]

/-- The bucketing of `sampleConfig`: the stale entries are gone, `All` is in
every bucket and `Bomb` in `Bombs` only. -/
theorem CategorizeBadCuts_buckets_sample :
    sampleConfig.CategorizeBadCuts.WrongDirections = [displayOf "All"] ∧
    sampleConfig.CategorizeBadCuts.WrongColors = [displayOf "All", displayOf "WrongColor"] ∧
    sampleConfig.CategorizeBadCuts.Bombs = [displayOf "All", displayOf "Bomb"] := by
  obtain ⟨h1, h2, h3, _⟩ := CategorizeBadCuts_buckets sampleConfig
  rw [h1, h2, h3]
  decide

/-- A raw array of three components is refused, one of four is resolved. -/
theorem ParseColor_iff_four_sample :
    (∃ e, ColorArray.ParseColor { RawColor := [1, 0, 0], Color := white } = Except.error e) ∧
    ColorArray.ParseColor { RawColor := [1, 0, 1 / 2, 1], Color := white } =
      Except.ok { RawColor := [1, 0, 1 / 2, 1], Color := ⟨1, 0, 1 / 2, 1⟩ } :=
  ⟨(ParseColor_iff_four { RawColor := [1, 0, 0], Color := white }).1.mpr (by decide),
    (ParseColor_iff_four { RawColor := [1, 0, 1 / 2, 1], Color := white }).2.2.1 1 0 (1 / 2) 1
      rfl⟩

/-- A document without judgments is refused, `sampleConfig` passes. -/
theorem ValidateJudgements_iff_empty_sample :
    (∃ e, Config.ValidateJudgements { sampleConfig with Judgements := [] } = Except.error e) ∧
    sampleConfig.ValidateJudgements = Except.ok () :=
  ⟨(ValidateJudgements_iff_empty { sampleConfig with Judgements := [] }).1.mpr rfl,
    (ValidateJudgements_iff_empty sampleConfig).2.1.mpr (by decide)⟩

/-- For every non-empty table scanned with its own length, a value below every
threshold makes `getBestJudgment` return the table's length. -/
theorem getBestJudgment_no_qualifying (st : State) (value : Int)
    (hlen : st.length = none ∨ st.length = some st.config.judgments.length)
    (hne : st.config.judgments ≠ [])
    (hall : ∀ j ∈ st.config.judgments, value < j.threshold) :
    (getBestJudgment st st.config.judgments value).2
      = Except.ok (some st.config.judgments.length) := by
  have hlen0 : st.config.judgments.length ≠ 0 := by
    intro h0
    exact hne (List.length_eq_zero.mp h0)
  have hL : st.length.getD st.config.judgments.length = st.config.judgments.length := by
    rcases hlen with h | h <;> simp [h]
  have hloop := getBestJudgment.loop_exhausts st.config.judgments st.config.judgments.length
    value (le_refl _) (fun k hk _ => hall _ (List.getElem_mem hk))
    st.config.judgments.length 0 (by omega) (by omega)
  simp only [getBestJudgment, hL, hlen0, if_false, hloop]
  rfl

/-- For every ASCII specifier outside the directive table, the template made
of `%` and that specifier expands to `%` followed by the decimal character
code.  (A character beyond ASCII is several code units of the C++ string, of
which the specifier is the first only.) -/
theorem DisplayModeFormat_default_case (convertTime : ℚ → Int → Int → Str)
    (cfg : HSVConfig) (score before after accuracy : Int) (timeDependence : ℚ)
    (th : Int) (col : Option Color) (ch : Char) (hascii : ch.toNat < 128)
    (hch : ch ∉ ['b', 'c', 'a', 's', 't', 'B', 'C', 'A', 'T', 'p', '%', '>', 'n']) :
    DisplayModeFormat convertTime cfg score before after accuracy timeDependence
      { threshold := th, text := some ['%', ch], color := col }
      = Except.ok ('%' :: to_string (ch.toNat : Int)) := by
  simp only [List.mem_cons, List.mem_singleton, not_or, List.not_mem_nil, not_false_eq_true,
    and_true] at hch
  obtain ⟨h1, h2, h3, h4, h5, h6, h7, h8, h9, h10, h11, h12, h13⟩ := hch
  simp [DisplayModeFormat, DisplayModeFormat.loop, find, substitution, h1, h2, h3, h4, h5, h6,
    h7, h8, h9, h10, h11, h12, h13]

/-- The position `find` gives for a character that first occurs right after
`u`. -/
theorem find_append_cons (u w : Str) (c : Char) (hu : c ∉ u) :
    find (u ++ c :: w) c = some u.length := by
  have hidx : (u ++ c :: w).indexOf c = u.length := by
    rw [List.indexOf_append_of_not_mem hu]
    simp
  unfold find
  rw [hidx]
  simp

/-- For all `u`, `w` without `%`, the template `u ++ "%s" ++ w` expands to
`u ++ decimal(score)`: the text `w` after the last directive is dropped. -/
theorem DisplayModeFormat_single_directive (convertTime : ℚ → Int → Int → Str)
    (cfg : HSVConfig) (score before after accuracy : Int) (timeDependence : ℚ)
    (th : Int) (col : Option Color) (u w : Str) (hu : '%' ∉ u) (hw : '%' ∉ w) :
    DisplayModeFormat convertTime cfg score before after accuracy timeDependence
      { threshold := th, text := some (u ++ '%' :: 's' :: w), color := col }
      = Except.ok (u ++ to_string score) := by
  have hf : find (u ++ '%' :: 's' :: w) '%' = some u.length := find_append_cons u _ '%' hu
  have hn : find w '%' = none := (find_eq_none_iff w '%').mpr hw
  simp only [DisplayModeFormat, hf]
  unfold DisplayModeFormat.loop
  split
  · rename_i h
    rw [hf] at h
    cases h
  · rename_i n h
    rw [hf] at h
    cases h
    have hdrop : List.drop (u.length + 2) (u ++ '%' :: 's' :: w) = w := by
      rw [List.drop_append]; rfl
    have hget : (u ++ '%' :: 's' :: w)[u.length + 1]? = some 's' := by
      rw [List.getElem?_append_right (by omega)]
      simp
    have hpad : ¬ (u ++ '%' :: 's' :: w).length = u.length + 1 := by
      simp only [List.length_append, List.length_cons]
      omega
    simp only [hpad, if_false, hget, hdrop]
    have hsub : substitution convertTime cfg score before after accuracy timeDependence 's'
        = Except.ok (to_string score) := by
      simp [substitution]
    simp only [hsub]
    unfold DisplayModeFormat.loop
    split
    · simp
    · rename_i n2 h2
      rw [hn] at h2
      cases h2

/-- C11: whenever `configValid` is false, `checkJudgments` returns for all
inputs without an error and leaves the globals (the judgment table and the
`static length` of `getBestJudgment` included, whatever they hold) and the
flying score effect (label text, label colour, rich-text, word-wrap and
overflow flags, effect colour) exactly as they were; a second call, with any
inputs, does the same. -/
theorem checkJudgments_invalid_config (convertTime : ℚ → Int → Int → Str) (st : State)
    (flyingScoreEffect : FlyingScoreEffect) (total before after accuracy : Int)
    (timeDependence : ℚ) (total2 before2 after2 accuracy2 : Int) (timeDependence2 : ℚ)
    (hinvalid : st.configValid = false) :
    checkJudgments convertTime st flyingScoreEffect total before after accuracy timeDependence
      = Except.ok (st, flyingScoreEffect) ∧
    (checkJudgments convertTime st flyingScoreEffect total before after accuracy timeDependence
      >>= fun p => checkJudgments convertTime p.1 p.2 total2 before2 after2 accuracy2
        timeDependence2) = Except.ok (st, flyingScoreEffect) := by
  have h1 : ∀ (t b a c : Int) (td : ℚ),
      checkJudgments convertTime st flyingScoreEffect t b a c td
        = Except.ok (st, flyingScoreEffect) := by
    intro t b a c td
    simp [checkJudgments, hinvalid]
  refine ⟨h1 _ _ _ _ _, ?_⟩
  rw [h1]
  exact h1 _ _ _ _ _

/-- Witness of C11: with the invalid globals, whose judgment table is empty,
judging twice leaves the blank effect as it was. -/
theorem checkJudgments_invalid_config_witness :
    invalidState.configValid = false ∧
    checkJudgments (fun _ _ _ => []) invalidState blankEffect 115 70 30 15 1
      = Except.ok (invalidState, blankEffect) ∧
    (checkJudgments (fun _ _ _ => []) invalidState blankEffect 115 70 30 15 1
      >>= fun p => checkJudgments (fun _ _ _ => []) p.1 p.2 50 20 20 10 (1 / 2))
      = Except.ok (invalidState, blankEffect) :=
  ⟨rfl, checkJudgments_invalid_config (fun _ _ _ => []) invalidState blankEffect 115 70 30 15 1
    50 20 20 10 (1 / 2) rfl⟩

/-- C15 (evaluation at the failing input): the first call, under a config with
one judgment, records the length 1; after a reload to the three-tier table
110, 100, 0 the call with that table and the value 50 scans one entry only and
returns 1, while the same call with the same table and value in a process that
starts with the three-tier config returns 2; and after a first call under the
three-tier config and a reload to a one-entry table, the scan reads
`config.judgments[1]`, outside the table. -/
theorem getBestJudgment_depends_on_first_call :
    (getBestJudgment
      (loadConfig (getBestJudgment (freshState oneTier) oneTier 100).1 (configOf threeTiers))
      threeTiers 50).2 = Except.ok (some 1) ∧
    (getBestJudgment (freshState threeTiers) threeTiers 50).2 = Except.ok (some 2) ∧
    (loadConfig (getBestJudgment (freshState oneTier) oneTier 100).1
      (configOf threeTiers)).config.judgments = threeTiers ∧
    (getBestJudgment
      (loadConfig (getBestJudgment (freshState threeTiers) threeTiers 115).1 (configOf oneTier))
      oneTier 50).2 = Except.error Err.outOfBounds := by
  refine ⟨?_, ?_, rfl, ?_⟩
  · simp [getBestJudgment, getBestJudgment.loop, loadConfig, freshState, configOf, oneTier,
      threeTiers, judgmentOf, Except.map]
  · simp [getBestJudgment, getBestJudgment.loop, freshState, configOf, threeTiers, judgmentOf,
      Except.map]
  · simp [getBestJudgment, getBestJudgment.loop, loadConfig, freshState, configOf, oneTier,
      threeTiers, judgmentOf, Except.map]

/-- The segment scan, entered with `bestIdx` at or before the first index `m`
below the last that qualifies, stops at `m`. -/
theorem getBestSegment.scan_stops (segments : List Segment) (comparison : Int)
    (m : Nat) (hm : m + 1 < segments.length)
    (hq : comparison ≥ segments[m].threshold)
    (hmin : ∀ k (hk : k < segments.length), k < m → comparison < segments[k].threshold)
    (d b : Nat) (hd : m - b = d) (hb : b ≤ m) :
    getBestSegment.loop segments segments.length comparison b (b + 1) = Except.ok m := by
  induction d generalizing b with
  | zero =>
    have hbm : b = m := by omega
    subst hbm
    rw [getBestSegment.loop]
    have hget : segments[b]? = some segments[b] := List.getElem?_eq_getElem (by omega)
    simp only [hm, if_true, hget]
    simp [hq]
  | succ d ih =>
    have hlt : b < m := by omega
    have hbt : b < segments.length := by omega
    rw [getBestSegment.loop]
    have hget : segments[b]? = some segments[b] := List.getElem?_eq_getElem hbt
    have hcond : b + 1 < segments.length := by omega
    have hno : ¬ comparison ≥ segments[b].threshold := by
      have := hmin b hbt hlt
      omega
    simp only [hcond, if_true, hget]
    simp only [hno, if_false]
    exact ih (b + 1) (by omega) (by omega)

/-- The segment scan ends on the last index when no index below it
qualifies. -/
theorem getBestSegment.scan_exhausts (segments : List Segment) (comparison : Int)
    (hnone : ∀ k (hk : k < segments.length), k + 1 < segments.length →
      comparison < segments[k].threshold)
    (d b : Nat) (hd : segments.length - 1 - b = d) (hb : b + 1 ≤ segments.length) :
    getBestSegment.loop segments segments.length comparison b (b + 1)
      = Except.ok (segments.length - 1) := by
  induction d generalizing b with
  | zero =>
    have hbm : b = segments.length - 1 := by omega
    rw [getBestSegment.loop]
    have hcond : ¬ b + 1 < segments.length := by omega
    simp only [hcond, if_false]
    rw [hbm]
  | succ d ih =>
    have hcond : b + 1 < segments.length := by omega
    have hbt : b < segments.length := by omega
    rw [getBestSegment.loop]
    have hget : segments[b]? = some segments[b] := List.getElem?_eq_getElem hbt
    have hno : ¬ comparison ≥ segments[b].threshold := by
      have := hnone b hbt hcond
      omega
    simp only [hcond, if_true, hget]
    simp only [hno, if_false]
    exact ih (b + 1) (by omega) (by omega)

/-- C14: `getBestSegment` returns an absent result exactly when the table is
empty; on a non-empty table of length n it returns the entry at the smallest
index i < n-1 with `value >= table[i].threshold`, and the last entry
`table[n-1]` when no index below n-1 qualifies, whatever the last entry's own
threshold is. -/
theorem getBestSegment_closed_form (segments : List Segment) (value : Int) :
    (getBestSegment segments value = Except.ok none ↔ segments = []) ∧
    (∀ i (hi : i + 1 < segments.length), value ≥ segments[i].threshold →
      (∀ k (hk : k < segments.length), k < i → value < segments[k].threshold) →
      getBestSegment segments value = Except.ok (some segments[i])) ∧
    (∀ (hne : segments ≠ []),
      (∀ k (hk : k < segments.length), k + 1 < segments.length →
        value < segments[k].threshold) →
      getBestSegment segments value = Except.ok (some (segments.getLast hne))) := by
  refine ⟨?_, ?_, ?_⟩
  · constructor
    · intro h
      by_contra hne
      have hlen : segments.length ≠ 0 := fun h0 => hne (List.length_eq_zero.mp h0)
      unfold getBestSegment at h
      simp only [hlen, if_false] at h
      split at h
      · cases h
      · split at h <;> cases h
    · intro h
      subst h
      rfl
  · intro i hi hq hmin
    have hloop := getBestSegment.scan_stops segments value i hi hq hmin i 0 (by omega)
      (by omega)
    have hlen : segments.length ≠ 0 := by omega
    have hget : segments[i]? = some segments[i] := List.getElem?_eq_getElem (by omega)
    simp only [getBestSegment, hlen, if_false, hloop, hget]
  · intro hne hnone
    have hlen : segments.length ≠ 0 := fun h0 => hne (List.length_eq_zero.mp h0)
    have hloop := getBestSegment.scan_exhausts segments value hnone (segments.length - 1) 0
      (by omega) (by omega)
    have hlast : segments.length - 1 < segments.length := by omega
    have hget : segments[segments.length - 1]? = some (segments.getLast hne) := by
      rw [List.getElem?_eq_getElem hlast, List.getLast_eq_getElem]
    simp only [getBestSegment, hlen, if_false, hloop, hget]

/-- Witness of C14: in the accuracy table 15, 10, 12 the value 11 selects the
entry at index 1, and the value 5, which the last threshold 12 exceeds as
well, selects the last entry. -/
theorem getBestSegment_closed_form_witness :
    getBestSegment accuracyTable 11 = Except.ok (some { threshold := 10, text := some ['A'] }) ∧
    getBestSegment accuracyTable 5 = Except.ok (some { threshold := 12, text := some ['B'] }) ∧
    (getBestSegment accuracyTable 5 = Except.ok none ↔ accuracyTable = []) :=
  ⟨(getBestSegment_closed_form accuracyTable 11).2.1 1 (by decide) (by decide)
      (by
        intro k hk hlt
        have hk0 : k = 0 := by omega
        subst hk0
        simp [accuracyTable]),
    (getBestSegment_closed_form accuracyTable 5).2.2 (by decide)
      (by
        intro k hk hlt
        have hk2 : k = 0 ∨ k = 1 := by
          have : accuracyTable.length = 3 := rfl
          omega
        rcases hk2 with h | h <;> subst h <;> simp [accuracyTable]),
    (getBestSegment_closed_form accuracyTable 5).1⟩

/-- A position `find` returns lies inside the string. -/
theorem find_lt_length (s : Str) (c : Char) (n : Nat) (h : find s c = some n) :
    n < s.length := by
  unfold find at h
  split at h
  · simp only [Option.some.injEq] at h
    omega
  · cases h

/-- The segment scan entered with `bestIdx` inside the table ends inside it,
without a read outside. -/
theorem getBestSegment.scan_in_bounds (segments : List Segment) (comparison : Int)
    (d b i : Nat) (hd : segments.length - i = d) (hb : b < segments.length) :
    ∃ r, getBestSegment.loop segments segments.length comparison b i = Except.ok r ∧
      r < segments.length := by
  induction d generalizing b i with
  | zero =>
    rw [getBestSegment.loop]
    have hcond : ¬ i < segments.length := by omega
    simp only [hcond, if_false]
    exact ⟨b, rfl, hb⟩
  | succ d ih =>
    rw [getBestSegment.loop]
    have hcond : i < segments.length := by omega
    have hget : segments[b]? = some segments[b] := List.getElem?_eq_getElem hb
    simp only [hcond, if_true, hget]
    by_cases hq : comparison ≥ segments[b].threshold
    · simp only [hq, if_true]
      exact ⟨b, rfl, hb⟩
    · simp only [hq, if_false]
      exact ih i (i + 1) (by omega) hcond

/-- The time-segment scan entered with `bestIdx` inside the table ends inside
it, without a read outside. -/
theorem getBestTimeSegment.timeScan_in_bounds (segments : List TimeSegment) (comparison : Int)
    (d b i : Nat) (hd : segments.length - i = d) (hb : b < segments.length) :
    ∃ r, getBestTimeSegment.loop segments segments.length comparison b i = Except.ok r ∧
      r < segments.length := by
  induction d generalizing b i with
  | zero =>
    rw [getBestTimeSegment.loop]
    have hcond : ¬ i < segments.length := by omega
    simp only [hcond, if_false]
    exact ⟨b, rfl, hb⟩
  | succ d ih =>
    rw [getBestTimeSegment.loop]
    have hcond : i < segments.length := by omega
    have hget : segments[b]? = some segments[b] := List.getElem?_eq_getElem hb
    simp only [hcond, if_true, hget]
    by_cases hq : (comparison : ℚ) ≥ segments[b].threshold
    · simp only [hq, if_true]
      exact ⟨b, rfl, hb⟩
    · simp only [hq, if_false]
      exact ih i (i + 1) (by omega) hcond

/-- `getBestSegment` always returns: the empty result or an entry. -/
theorem getBestSegment_returns (segments : List Segment) (comparison : Int) :
    ∃ r, getBestSegment segments comparison = Except.ok r := by
  unfold getBestSegment
  by_cases hlen : segments.length = 0
  · simp [hlen]
  · obtain ⟨r, hr, hlt⟩ := getBestSegment.scan_in_bounds segments comparison
      (segments.length - 1) 0 1 rfl (by omega)
    have hget : segments[r]? = some segments[r] := List.getElem?_eq_getElem hlt
    simp only [hlen, if_false, hr, hget]
    exact ⟨_, rfl⟩

/-- `getBestTimeSegment` always returns: the empty result or an entry. -/
theorem getBestTimeSegment_returns (segments : List TimeSegment) (comparison : Int) :
    ∃ r, getBestTimeSegment segments comparison = Except.ok r := by
  unfold getBestTimeSegment
  by_cases hlen : segments.length = 0
  · simp [hlen]
  · obtain ⟨r, hr, hlt⟩ := getBestTimeSegment.timeScan_in_bounds segments comparison
      (segments.length - 1) 0 1 rfl (by omega)
    have hget : segments[r]? = some segments[r] := List.getElem?_eq_getElem hlt
    simp only [hlen, if_false, hr, hget]
    exact ⟨_, rfl⟩

/-- `value` fails with `badOptionalAccess` only. -/
theorem value_ne_outOfBounds {α : Type} (o : Option α) :
    value o ≠ Except.error Err.outOfBounds := by
  cases o <;> simp [value]

/-- `JudgeSegment` makes no read outside its table. -/
theorem JudgeSegment_ne_outOfBounds (score : Int) (judgments : List Segment) :
    JudgeSegment score judgments ≠ Except.error Err.outOfBounds := by
  obtain ⟨r, hr⟩ := getBestSegment_returns judgments score
  unfold JudgeSegment
  rw [hr]
  cases r with
  | none => simp [value, bind, Except.bind]
  | some s =>
    cases ht : s.text with
    | none => simp [value, bind, Except.bind, ht]
    | some t =>
      by_cases he : t.isEmpty <;> simp [value, bind, Except.bind, ht, he, pure, Except.pure]

/-- `JudgeTimeSegment` makes no read outside its table. -/
theorem JudgeTimeSegment_ne_outOfBounds (score : Int) (judgments : List TimeSegment) :
    JudgeTimeSegment score judgments ≠ Except.error Err.outOfBounds := by
  obtain ⟨r, hr⟩ := getBestTimeSegment_returns judgments score
  unfold JudgeTimeSegment
  rw [hr]
  cases r with
  | none => simp [value, bind, Except.bind]
  | some s =>
    cases ht : s.text with
    | none => simp [value, bind, Except.bind, ht]
    | some t =>
      by_cases he : t.isEmpty <;> simp [value, bind, Except.bind, ht, he, pure, Except.pure]

/-- No directive's substitution reads outside a table. -/
theorem substitution_ne_outOfBounds (convertTime : ℚ → Int → Int → Str) (cfg : HSVConfig)
    (score before after accuracy : Int) (timeDependence : ℚ) (specifier : Char) :
    substitution convertTime cfg score before after accuracy timeDependence specifier
      ≠ Except.error Err.outOfBounds := by
  have key : ∀ (c : Prop) [Decidable c] (x y : Except Err Str),
      x ≠ Except.error Err.outOfBounds → y ≠ Except.error Err.outOfBounds →
      (if c then x else y) ≠ Except.error Err.outOfBounds := by
    intro c _ x y hx hy
    split <;> assumption
  have hok : ∀ s : Str, (Except.ok s : Except Err Str) ≠ Except.error Err.outOfBounds :=
    fun _ h => Except.noConfusion h
  unfold substitution
  refine key _ _ _ (hok _) (key _ _ _ (hok _) (key _ _ _ (hok _) (key _ _ _ (hok _)
    (key _ _ _ (JudgeSegment_ne_outOfBounds _ _) (key _ _ _ (JudgeSegment_ne_outOfBounds _ _)
    (key _ _ _ (JudgeSegment_ne_outOfBounds _ _)
    (key _ _ _ (JudgeTimeSegment_ne_outOfBounds _ _) (key _ _ _ (hok _) (key _ _ _ (hok _)
    (key _ _ _ (hok _) (key _ _ _ (hok _) (key _ _ _ (hok _) (hok _)))))))))))))

/-- After the padding step the specifier slot lies inside the working string:
a string whose first `%` is its last character gets one blank appended. -/
theorem specifier_slot_in_bounds (formatString : Str) (n : Nat)
    (h : find formatString '%' = some n) :
    n + 1 < (if formatString.length = n + 1 then formatString ++ [' ']
      else formatString).length := by
  have hlt := find_lt_length formatString '%' n h
  split
  · simp only [List.length_append, List.length_singleton]
    omega
  · omega

/-- The expansion loop never reads outside the working string or a table,
whatever strings it is entered with. -/
theorem DisplayModeFormat.expansion_in_bounds (convertTime : ℚ → Int → Int → Str)
    (cfg : HSVConfig) (score before after accuracy : Int) (timeDependence : ℚ) (n : Nat) :
    ∀ (formatString buildString : Str), formatString.length ≤ n →
      DisplayModeFormat.loop convertTime cfg score before after accuracy timeDependence
        formatString buildString ≠ Except.error Err.outOfBounds := by
  induction n with
  | zero =>
    intro formatString buildString hlen
    unfold DisplayModeFormat.loop
    split
    · exact fun h => Except.noConfusion h
    · rename_i idx h
      have := find_lt_length formatString '%' idx h
      omega
  | succ n ih =>
    intro formatString buildString hlen
    unfold DisplayModeFormat.loop
    split
    · exact fun h => Except.noConfusion h
    · rename_i idx h
      have hlt := find_lt_length formatString '%' idx h
      have hslot := specifier_slot_in_bounds formatString idx h
      simp only []
      split
      · rename_i hnone
        rw [List.getElem?_eq_getElem hslot] at hnone
        cases hnone
      · rename_i specifier hsome
        split
        · rename_i e he
          intro hcontra
          injection hcontra with he2
          rw [he2] at he
          exact substitution_ne_outOfBounds _ _ _ _ _ _ _ _ he
        · rename_i sub hsub
          apply ih
          simp only [List.length_drop]
          split
          · simp only [List.length_append, List.length_singleton]
            omega
          · omega

/-- C12: for every template, judgment and score input, each read of a
specifier at position (index of `%`) + 1 is inside the working string, a
string ending in its first `%` having been padded with one blank before the
read; hence `DisplayModeFormat` never fails with a read out of bounds. -/
theorem DisplayModeFormat_reads_in_bounds (convertTime : ℚ → Int → Int → Str)
    (cfg : HSVConfig) (score before after accuracy : Int) (timeDependence : ℚ)
    (judgment : Judgment) :
    (∀ (formatString : Str) (n : Nat), find formatString '%' = some n →
      ∃ specifier, (if formatString.length = n + 1 then formatString ++ [' ']
        else formatString)[n + 1]? = some specifier) ∧
    (∀ formatString buildString : Str,
      DisplayModeFormat.loop convertTime cfg score before after accuracy timeDependence
        formatString buildString ≠ Except.error Err.outOfBounds) ∧
    DisplayModeFormat convertTime cfg score before after accuracy timeDependence judgment
      ≠ Except.error Err.outOfBounds := by
  have hloop : ∀ formatString buildString : Str,
      DisplayModeFormat.loop convertTime cfg score before after accuracy timeDependence
        formatString buildString ≠ Except.error Err.outOfBounds :=
    fun fs bs => DisplayModeFormat.expansion_in_bounds convertTime cfg score before after accuracy
      timeDependence fs.length fs bs (le_refl _)
  refine ⟨?_, hloop, ?_⟩
  · intro formatString n h
    exact ⟨_, List.getElem?_eq_getElem (specifier_slot_in_bounds formatString n h)⟩
  · unfold DisplayModeFormat
    split
    · intro h
      injection h with he
      cases he
    · split
      · exact value_ne_outOfBounds _
      · exact hloop _ _

/-- Witness of C12: the template `ab%` ends in a lone `%`; its specifier slot,
position 3, holds the padding blank, and the expansion does not fail with a
read out of bounds. -/
theorem DisplayModeFormat_reads_in_bounds_witness :
    (∃ specifier, (if "ab%".toList.length = 2 + 1 then "ab%".toList ++ [' ']
        else "ab%".toList)[2 + 1]? = some specifier) ∧
    DisplayModeFormat (fun _ _ _ => []) (configOf []) 115 70 30 15 1 (judgmentOf 0 "ab%")
      ≠ Except.error Err.outOfBounds :=
  ⟨(DisplayModeFormat_reads_in_bounds (fun _ _ _ => []) (configOf []) 115 70 30 15 1
      (judgmentOf 0 "ab%")).1 "ab%".toList 2 (by decide),
    (DisplayModeFormat_reads_in_bounds (fun _ _ _ => []) (configOf []) 115 70 30 15 1
      (judgmentOf 0 "ab%")).2.2⟩

/-- C13 (evaluation at the failing input): with the time-dependence table
(0.3, `A`), (0.0, `B`) and the time dependence 0.5, the value passed to the
`int` parameter of `JudgeTimeSegment` is 0, the scan compares 0 against 0.3
and moves on, and `%T` is replaced by `B`, although 0.5 is not below the first
threshold 0.3. -/
theorem JudgeTimeSegment_truncates_time_dependence (convertTime : ℚ → Int → Int → Str)
    (score before after accuracy : Int) :
    floatToInt (1 / 2) = 0 ∧
    JudgeTimeSegment (floatToInt (1 / 2)) timeTable = Except.ok ['B'] ∧
    DisplayModeFormat convertTime timeConfig score before after accuracy (1 / 2) timeJudgment
      = Except.ok ['B'] ∧
    ((1 / 2 : ℚ) ≥ 3 / 10) := by
  have hf : floatToInt (1 / 2) = 0 := by
    unfold floatToInt
    norm_num
    rfl
  have hf2 : floatToInt 2⁻¹ = 0 := by simpa using hf
  have hthr : ¬ ((3 : ℚ) / 10 ≤ 0) := by norm_num
  have hj : JudgeTimeSegment 0 timeTable = Except.ok ['B'] := by
    simp [JudgeTimeSegment, getBestTimeSegment, getBestTimeSegment.loop, timeTable, value, bind,
      Except.bind, pure, Except.pure, hthr]
  refine ⟨hf, by rw [hf]; exact hj, ?_, by norm_num⟩
  simp [DisplayModeFormat, DisplayModeFormat.loop, find, substitution, timeJudgment, judgmentOf,
    timeConfig, configOf, hf2, hj]

/-- Every time dependence from 0 up to, not including, 1 is converted to the
`int` 0. -/
theorem floatToInt_unit_interval (t : ℚ) (h0 : 0 ≤ t) (h1 : t < 1) : floatToInt t = 0 := by
  unfold floatToInt
  apply Int.tdiv_eq_zero_of_lt (Rat.num_nonneg.mpr h0)
  exact Rat.lt_one_iff_num_lt_denom.mp h1

end HSV
